import Mathlib

/-!
Shallow embedding of the offline-aware state synchronization logic of the
repository: the edge memory hook (src/satellites/shared/useEdgeMemory.ts)
and the dual-hemisphere failover hook (the DualHemisphereCore component
file).  Remote calls are modelled as oracles: each operation takes the
outcome the remote call would have had, and the definitions mirror the
branching of the source.  Numeric confidences are modelled as rationals;
timestamps as naturals.
-/

namespace EdgeSync

/-- JavaScript's `list.slice(-n)`: the last `n` elements (the whole list
when it has fewer than `n`). -/
def jsSliceLast (l : List α) (n : Nat) : List α := l.drop (l.length - n)

/-- Falsy-aware default for an optional string, as JS `s || d`
("" is falsy). -/
def jsOrStr (x : Option String) (d : String) : String :=
  match x with
  | some s => if s = "" then d else s
  | none => d

/-- Falsy-aware default for an optional rational, as JS `v || d`
(0 is falsy). -/
def jsOrQ (x : Option ℚ) (d : ℚ) : ℚ :=
  match x with
  | some v => if v = 0 then d else v
  | none => d

/-- Merge for optional fields, as the JS spread `{...base, ...patch}`:
a field present in the patch overrides the base. -/
def ovr (patch base : Option α) : Option α :=
  match patch with
  | some v => some v
  | none => base

/-- A stored memory record (interface UserMemory). -/
structure UserMemory where
  content : String
  memoryType : String
  importance : String
  confidence : ℚ
  topicTags : Option (List String)
deriving DecidableEq, Repr

/-- The argument of storeMemory: a UserMemory without its confidence. -/
structure MemoryInput where
  content : String
  memoryType : String
  importance : String
  topicTags : Option (List String)
deriving DecidableEq, Repr

/-- A knowledge entry (the value type of interface UserKnowledge);
the opaque `value` is modelled as a string. -/
structure KnowledgeEntry where
  value : String
  confidence : ℚ
  observations : ℤ
  type : String
deriving DecidableEq, Repr

/-- The knowledge map, keyed by string. -/
abbrev Knowledge := List (String × KnowledgeEntry)

/-- interface SessionState; `activeContext` values are modelled as
strings. -/
structure SessionState where
  conversationSummary : Option String
  activeContext : List (String × String)
  pendingTopics : List String
  communicationStyle : String
  verbosityPreference : String
  totalInteractions : ℤ
  totalSessions : ℤ
deriving DecidableEq, Repr

/-- interface EdgeMemoryState; `lastSyncAt` is a natural timestamp. -/
structure EdgeMemoryState where
  memories : List UserMemory
  knowledge : Knowledge
  session : Option SessionState
  isReturningUser : Bool
  greeting : String
  isLoading : Bool
  isOnline : Bool
  lastSyncAt : Option ℕ
deriving DecidableEq, Repr

/-- The initial state of the useEdgeMemory hook. -/
def initialEdgeState : EdgeMemoryState :=
  { memories := []
    knowledge := []
    session := none
    isReturningUser := false
    greeting := "Hello"
    isLoading := true
    isOnline := true
    lastSyncAt := none }

/-- Remote calls fired by the edge memory hook, with the payload parts the
code computes locally. -/
inductive EdgeCall where
  | storeCall (input : MemoryInput) (sourceMode : String)
  | evolveCall (key : String) (value : String) (type : String)
  | syncSessionCall
  | extractCall
deriving DecidableEq, Repr

/-- `{ ...memory, confidence: 0.5 }`: the record appended by storeMemory. -/
def mkMemory (m : MemoryInput) : UserMemory :=
  { content := m.content
    memoryType := m.memoryType
    importance := m.importance
    confidence := 1/2
    topicTags := m.topicTags }

/-- Which branch of storeMemory runs: no authenticated user, the remote
store call completes, or it throws. -/
inductive StoreBranch where
  | noUser
  | remoteOk
  | remoteExn
deriving DecidableEq, Repr

/-- storeMemory (useEdgeMemory.ts lines 169-207).  On every branch the
local list update is `[...prev.memories.slice(-49), {...memory,
confidence: 0.5}]`; with a user the remote store call is fired first,
tagged with the current online/offline mode, and a thrown remote error is
caught without changing the local update. -/
def storeMemory (b : StoreBranch) (st : EdgeMemoryState) (m : MemoryInput) :
    EdgeMemoryState × List EdgeCall :=
  let st' := { st with memories := jsSliceLast st.memories 49 ++ [mkMemory m] }
  match b with
  | .noUser => (st', [])
  | .remoteOk =>
      (st', [.storeCall m (if st.isOnline then "federated" else "sovereign")])
  | .remoteExn =>
      (st', [.storeCall m (if st.isOnline then "federated" else "sovereign")])

/-- Fold a sequence of storeMemory calls (each with the branch its remote
call takes) over a state, keeping only the state. -/
def storeMemorySeq (st : EdgeMemoryState) (calls : List (StoreBranch × MemoryInput)) :
    EdgeMemoryState :=
  calls.foldl (fun s c => (storeMemory c.1 s c.2).1) st

/-- The JSON blob persisted in local storage under the per-satellite key.
Each field is optional: the blob is built by merging patches, so any
field may be absent.  The `session` field distinguishes an absent field
(outer none) from a stored null (inner none), as JSON does. -/
structure CacheBlob where
  memories : Option (List UserMemory) := none
  knowledge : Option Knowledge := none
  session : Option (Option SessionState) := none
  isReturningUser : Option Bool := none
  greeting : Option String := none
  isLoading : Option Bool := none
  isOnline : Option Bool := none
  lastSyncAt : Option (Option ℕ) := none
  savedAt : Option ℕ := none
deriving DecidableEq, Repr

/-- A Partial EdgeMemoryState, as passed to saveToLocalStorage and to
setState merges: every field optional, the outer Option meaning field
presence. -/
structure StatePatch where
  memories : Option (List UserMemory) := none
  knowledge : Option Knowledge := none
  session : Option (Option SessionState) := none
  isReturningUser : Option Bool := none
  greeting : Option String := none
  isLoading : Option Bool := none
  isOnline : Option Bool := none
  lastSyncAt : Option (Option ℕ) := none
deriving DecidableEq, Repr

/-- setState(prev => ({...prev, ...patch})): fields present in the patch
override the state. -/
def applyPatch (st : EdgeMemoryState) (p : StatePatch) : EdgeMemoryState :=
  { memories := p.memories.getD st.memories
    knowledge := p.knowledge.getD st.knowledge
    session := (p.session.getD st.session : Option SessionState)
    isReturningUser := p.isReturningUser.getD st.isReturningUser
    greeting := p.greeting.getD st.greeting
    isLoading := p.isLoading.getD st.isLoading
    isOnline := p.isOnline.getD st.isOnline
    lastSyncAt := (p.lastSyncAt.getD st.lastSyncAt : Option ℕ) }

/-- loadFromLocalStorage (lines 101-118): when a cached blob exists, set
memories/knowledge/session from it with falsy defaults ([], {}, null) and
mark offline and not loading; when no blob exists (or the read fails and
is swallowed), the state is untouched. -/
def loadFromLocalStorage (st : EdgeMemoryState) (cache : Option CacheBlob) :
    EdgeMemoryState :=
  match cache with
  | none => st
  | some blob =>
      { st with
        memories := blob.memories.getD []
        knowledge := blob.knowledge.getD []
        session := blob.session.join
        isOnline := false
        isLoading := false }

/-- saveToLocalStorage (lines 120-129): read the existing blob (empty when
absent), spread the patch over it, stamp savedAt, and write it back. -/
def saveToLocalStorage (cache : Option CacheBlob) (p : StatePatch) (now : ℕ) :
    CacheBlob :=
  let blob := cache.getD {}
  { memories := ovr p.memories blob.memories
    knowledge := ovr p.knowledge blob.knowledge
    session := ovr p.session blob.session
    isReturningUser := ovr p.isReturningUser blob.isReturningUser
    greeting := ovr p.greeting blob.greeting
    isLoading := ovr p.isLoading blob.isLoading
    isOnline := ovr p.isOnline blob.isOnline
    lastSyncAt := ovr p.lastSyncAt blob.lastSyncAt
    savedAt := some now }

/-- The `context` object of a rehydrate response. -/
structure RehydrateContext where
  memories : Option (List UserMemory) := none
  knowledge : Option Knowledge := none
  session : Option SessionState := none
deriving DecidableEq, Repr

/-- The body of a successful rehydrate response. -/
structure RehydrateData where
  context : Option RehydrateContext := none
  isReturningUser : Bool := false
  greeting : String := ""
deriving DecidableEq, Repr

/-- Outcome of the remote rehydrate call: a data/error pair with a
structured error, the same pair with data, or a thrown exception. -/
inductive RehydrateOutcome where
  | ok (d : RehydrateData)
  | err
  | exn
deriving DecidableEq, Repr

/-- rehydrateInternal (lines 131-167).  On success, build the new partial
state from the response (context fields defaulting to empty), merge it
into the state, and persist the same partial to local storage.  On a
structured error or a thrown exception, load the local cache and mark
offline and not loading; the cache is not written. -/
def rehydrateInternal (outcome : RehydrateOutcome) (now : ℕ)
    (st : EdgeMemoryState) (cache : Option CacheBlob) :
    EdgeMemoryState × Option CacheBlob :=
  match outcome with
  | .ok d =>
      let p : StatePatch :=
        { memories := some ((d.context.bind (·.memories)).getD [])
          knowledge := some ((d.context.bind (·.knowledge)).getD [])
          session := some (d.context.bind (·.session))
          isReturningUser := some d.isReturningUser
          greeting := some d.greeting
          isOnline := some true
          isLoading := some false
          lastSyncAt := some (some now) }
      (applyPatch st p, some (saveToLocalStorage cache p now))
  | .err =>
      let st1 := loadFromLocalStorage st cache
      ({ st1 with isOnline := false, isLoading := false }, cache)
  | .exn =>
      let st1 := loadFromLocalStorage st cache
      ({ st1 with isOnline := false, isLoading := false }, cache)

/-- A Partial SessionState, the argument of updateSession; the outer
Option on each field means field presence. -/
structure SessionPatch where
  conversationSummary : Option String := none
  activeContext : Option (List (String × String)) := none
  pendingTopics : Option (List String) := none
  communicationStyle : Option String := none
  verbosityPreference : Option String := none
  totalInteractions : Option ℤ := none
  totalSessions : Option ℤ := none
deriving DecidableEq, Repr

/-- The shallow merge `{ ...prev.session, ...updates }`. -/
def mergeSession (s : SessionState) (p : SessionPatch) : SessionState :=
  { conversationSummary := ovr p.conversationSummary s.conversationSummary
    activeContext := p.activeContext.getD s.activeContext
    pendingTopics := p.pendingTopics.getD s.pendingTopics
    communicationStyle := p.communicationStyle.getD s.communicationStyle
    verbosityPreference := p.verbosityPreference.getD s.verbosityPreference
    totalInteractions := p.totalInteractions.getD s.totalInteractions
    totalSessions := p.totalSessions.getD s.totalSessions }

/-- Outcome of the remote sync_session call.  The code discards the call's
returned value, so the only outcomes it distinguishes are completion
(whatever the returned value held) and a thrown exception. -/
inductive SyncOutcome where
  | ret
  | exn
deriving DecidableEq, Repr

/-- updateSession (lines 262-284): a no-op without a user; otherwise fire
the remote sync_session call, then merge the update into the local
session only when one exists (`prev.session ? {...prev.session,
...updates} : null`); a thrown remote error is caught and skips the
merge. -/
def updateSession (hasUser : Bool) (outcome : SyncOutcome)
    (st : EdgeMemoryState) (upd : SessionPatch) :
    EdgeMemoryState × List EdgeCall :=
  if !hasUser then (st, [])
  else
    match outcome with
    | .exn => (st, [.syncSessionCall])
    | .ret =>
        ({ st with session := st.session.map (fun s => mergeSession s upd) },
         [.syncSessionCall])

/-- A preference or pattern item of an extract_insights response. -/
structure InsightItem where
  key : String
  value : String
  confidence : ℚ
deriving DecidableEq, Repr

/-- A fact item of an extract_insights response. -/
structure InsightFact where
  content : String
  importance : String
deriving DecidableEq, Repr

/-- The `insights` object of an extract_insights response; each category
list may be absent. -/
structure Insights where
  preferences : Option (List InsightItem) := none
  patterns : Option (List InsightItem) := none
  facts : Option (List InsightFact) := none
deriving DecidableEq, Repr

/-- The body of an extract_insights response. -/
structure ExtractData where
  success : Bool := false
  insights : Option Insights := none
deriving DecidableEq, Repr

/-- Outcome of the remote extract_insights call: a returned body (possibly
absent, as `data?.`), or a thrown exception. -/
inductive ExtractOutcome where
  | ok (d : Option ExtractData)
  | exn
deriving DecidableEq, Repr

/-- A conversation turn as passed to extractInsights. -/
structure ConvTurn where
  role : String
  content : String
deriving DecidableEq, Repr

/-- extractInsights (lines 286-325), as the sequence of remote calls it
fires: a no-op without a user or with fewer than 2 turns; otherwise the
extract_insights call, then, when the response is a structured success
with insights, one evolveKnowledge call per preference with confidence
above 0.6 (type "preference"), then per pattern above 0.5 (type
"behavior"), then one storeMemory call per fact (an "insight" record with
empty topicTags, its sourceMode taken from the current online flag as in
storeMemory); a thrown remote error ends the fan-out. -/
def extractInsights (hasUser : Bool) (isOnline : Bool) (conv : List ConvTurn)
    (outcome : ExtractOutcome) : List EdgeCall :=
  if !hasUser || conv.length < 2 then []
  else
    .extractCall ::
    match outcome with
    | .exn => []
    | .ok none => []
    | .ok (some d) =>
        match d.success, d.insights with
        | true, some ins =>
            (((ins.preferences.getD []).filter
                (fun p => decide (p.confidence > 6/10))).map
              (fun p => EdgeCall.evolveCall p.key p.value "preference"))
            ++ (((ins.patterns.getD []).filter
                  (fun p => decide (p.confidence > 5/10))).map
                (fun p => EdgeCall.evolveCall p.key p.value "behavior"))
            ++ ((ins.facts.getD []).map
                (fun f => EdgeCall.storeCall
                  { content := f.content
                    memoryType := "insight"
                    importance := f.importance
                    topicTags := some [] }
                  (if isOnline then "federated" else "sovereign")))
        | _, _ => []

/-! The dual-hemisphere failover hook (useDualHemisphere in the
DualHemisphereCore file). -/

/-- A turn of the hook's short-term local window.  The content is an
optional string because the sovereign path records the raw response field
of the reply, which may be absent. -/
structure Turn where
  role : String
  content : Option String
deriving DecidableEq, Repr

/-- A reasoning result as returned by process/processSovereign. -/
structure ReasoningResult where
  response : String
  confidence : ℚ
  hemisphere : String
  reasoning_trace : List String
  governance_validated : Bool
deriving DecidableEq, Repr

/-- The hook state of useDualHemisphere. -/
structure DHState where
  isSovereign : Bool
  localMemory : List Turn
  lastResult : Option ReasoningResult
deriving DecidableEq, Repr

/-- The initial state of the useDualHemisphere hook. -/
def initialDHState : DHState :=
  { isSovereign := false, localMemory := [], lastResult := none }

/-- The body of a successful primary (chat) reply; every field may be
absent. -/
structure ChatData where
  response : Option String := none
  confidence : Option ℚ := none
  dominant_hemisphere : Option String := none
  reasoning_trace : Option (List String) := none
  governance_validated : Option Bool := none
deriving DecidableEq, Repr

/-- The body of a successful sovereign-fallback reply. -/
structure SovData where
  response : Option String := none
  confidence : Option ℚ := none
  reasoning_trace : Option (List String) := none
  governance_validated : Option Bool := none
deriving DecidableEq, Repr

/-- Outcome of the primary chat call: data, a structured error, or a
thrown exception. -/
inductive PrimaryOutcome where
  | ok (d : ChatData)
  | err
  | exn
deriving DecidableEq, Repr

/-- Outcome of a sovereign-fallback call.  A structured error is rethrown
by processSovereign (`if (error) throw error`), so both a structured
error and a thrown exception are the failing case. -/
inductive SovOutcome where
  | ok (d : SovData)
  | fail
deriving DecidableEq, Repr

/-- The remote environment one process call runs against: the health-ping
verdict, the primary outcome, and the outcomes of the first and (when it
happens) second sovereign invocation. -/
structure ProcEnv where
  healthy : Bool
  primary : PrimaryOutcome
  sov1 : SovOutcome
  sov2 : SovOutcome
deriving DecidableEq, Repr

/-- Observable events of a process call, in program order. -/
inductive DHEvent where
  | ping
  | setSov (b : Bool)
  | callPrimary
  | callSovereign (ctx : List Turn)
deriving DecidableEq, Repr

/-- The result the primary success branch builds (lines 370-376). -/
def mkChatResult (d : ChatData) : ReasoningResult :=
  { response := jsOrStr d.response ""
    confidence := jsOrQ d.confidence (8/10)
    hemisphere := jsOrStr d.dominant_hemisphere "fused"
    reasoning_trace := d.reasoning_trace.getD []
    governance_validated := d.governance_validated.getD true }

/-- The result processSovereign builds (lines 326-332). -/
def mkSovResult (d : SovData) : ReasoningResult :=
  { response := jsOrStr d.response ""
    confidence := jsOrQ d.confidence (3/4)
    hemisphere := "fused"
    reasoning_trace := d.reasoning_trace.getD ["SOVEREIGN_MODE"]
    governance_validated := d.governance_validated.getD true }

/-- processSovereign (lines 301-333): call the sovereign endpoint with the
last 10 window turns as context; throw on error; on success append the
user query and the reply's raw response field to the window
(`[...prev.slice(-9), user, assistant]`) and return the built result.  It
does not touch isSovereign or lastResult. -/
def processSovereign (out : SovOutcome) (query : String) (st : DHState) :
    Except Unit (ReasoningResult × DHState) × List DHEvent :=
  let ctx := jsSliceLast st.localMemory 10
  match out with
  | .fail => (.error (), [.callSovereign ctx])
  | .ok d =>
      let st' := { st with
        localMemory := jsSliceLast st.localMemory 9 ++
          [{ role := "user", content := some query },
           { role := "assistant", content := d.response }] }
      (.ok (mkSovResult d, st'), [.callSovereign ctx])

/-- process (lines 335-393).  Ping first; when unhealthy, mark sovereign
and run only the sovereign path, whose failure propagates.  When healthy,
clear the sovereign flag and call the primary endpoint inside a
try/catch: on data, build the result, append the query and the (default-
filled) response to the window and record the result; on a structured
error, mark sovereign and run the sovereign path inside the same try, so
that a sovereign throw is caught by the outer catch, which marks
sovereign again and runs the sovereign path a second time; on a thrown
primary exception the catch runs the sovereign path once; a sovereign
throw inside the catch propagates. -/
def process (env : ProcEnv) (query : String) (st : DHState) :
    Except Unit ReasoningResult × DHState × List DHEvent :=
  if !env.healthy then
    let st1 := { st with isSovereign := true }
    match processSovereign env.sov1 query st1 with
    | (.error e, evs) => (.error e, st1, [.ping, .setSov true] ++ evs)
    | (.ok (r, st2), evs) =>
        (.ok r, { st2 with lastResult := some r }, [.ping, .setSov true] ++ evs)
  else
    let st1 := { st with isSovereign := false }
    let pre : List DHEvent := [.ping, .setSov false, .callPrimary]
    match env.primary with
    | .ok d =>
        let r := mkChatResult d
        let st2 := { st1 with
          localMemory := jsSliceLast st1.localMemory 9 ++
            [{ role := "user", content := some query },
             { role := "assistant", content := some r.response }]
          lastResult := some r }
        (.ok r, st2, pre)
    | .err =>
        let st2 := { st1 with isSovereign := true }
        (match processSovereign env.sov1 query st2 with
         | (.ok (r, st3), evs) =>
             (.ok r, { st3 with lastResult := some r },
              pre ++ [.setSov true] ++ evs)
         | (.error _, evs1) =>
             let st3 := { st2 with isSovereign := true }
             match processSovereign env.sov2 query st3 with
             | (.ok (r, st4), evs2) =>
                 (.ok r, { st4 with lastResult := some r },
                  pre ++ [.setSov true] ++ evs1 ++ [.setSov true] ++ evs2)
             | (.error e, evs2) =>
                 (.error e, st3,
                  pre ++ [.setSov true] ++ evs1 ++ [.setSov true] ++ evs2))
    | .exn =>
        let st2 := { st1 with isSovereign := true }
        match processSovereign env.sov1 query st2 with
        | (.ok (r, st3), evs) =>
            (.ok r, { st3 with lastResult := some r },
             pre ++ [.setSov true] ++ evs)
        | (.error e, evs) =>
            (.error e, st2, pre ++ [.setSov true] ++ evs)

/-- The delay of the abort timer set up by checkFederationHealth. -/
def PING_TIMEOUT_MS : ℕ := 3000

/-- The remote environment of one health ping: whether the reply carries a
structured error, whether the call throws, and how long the remote takes
to answer (milliseconds). -/
structure PingEnv where
  retError : Bool
  throws : Bool
  durationMs : ℕ
deriving DecidableEq, Repr

/-- A function invoke with an optional abort signal (the signal's value is
the timer delay): the request is aborted, and throws, exactly when a
signal is attached and its timer fires before the reply arrives.  Returns
the outcome (error flag on completion) and the milliseconds waited. -/
def invokeWithSignal (signal : Option ℕ) (env : PingEnv) :
    Except Unit Bool × ℕ :=
  match signal with
  | some t =>
      if t < env.durationMs then (.error (), t)
      else if env.throws then (.error (), env.durationMs)
      else (.ok env.retError, env.durationMs)
  | none =>
      if env.throws then (.error (), env.durationMs)
      else (.ok env.retError, env.durationMs)

/-- checkFederationHealth (lines 287-299).  The code creates an
AbortController and a PING_TIMEOUT_MS (3000 ms) timer that calls
controller.abort, but the invoke call is made without the controller's
signal (controller.signal never appears in the call), so the request is
never aborted and is awaited for its full duration.  The verdict is
`!error` on completion and false on a thrown exception; the second
component is the milliseconds actually waited. -/
def checkFederationHealth (env : PingEnv) : Bool × ℕ :=
  let attachedSignal : Option ℕ := none
  match invokeWithSignal attachedSignal env with
  | (.ok error, w) => (!error, w)
  | (.error _, w) => (false, w)

/-! Helper lemmas about jsSliceLast. -/

theorem length_jsSliceLast (l : List α) (n : Nat) :
    (jsSliceLast l n).length = min n l.length := by
  simp only [jsSliceLast, List.length_drop]
  omega

theorem jsSliceLast_jsSliceLast (l : List α) {m n : Nat} (h : n ≤ m) :
    jsSliceLast (jsSliceLast l m) n = jsSliceLast l n := by
  simp only [jsSliceLast, List.length_drop, List.drop_drop]
  congr 1
  omega

theorem jsSliceLast_append_one (l : List α) (x : α) (n : Nat) :
    jsSliceLast l n ++ [x] = jsSliceLast (l ++ [x]) (n + 1) := by
  simp only [jsSliceLast, List.length_append, List.length_cons,
    List.length_nil]
  rw [show l.length + 1 - (n + 1) = l.length - n by omega,
    List.drop_append_of_le_length (by omega)]

theorem jsSliceLast_subset (l : List α) (n : Nat) : jsSliceLast l n ⊆ l :=
  List.drop_subset _ l

theorem jsSliceLast_nil (n : Nat) : jsSliceLast ([] : List α) n = [] := by
  simp [jsSliceLast]

/-! Lemmas about storeMemory. -/

/-- The state produced by storeMemory is the same on every branch: the
bounded local append, with all other fields untouched. -/
theorem storeMemory_fst (b : StoreBranch) (st : EdgeMemoryState) (m : MemoryInput) :
    (storeMemory b st m).1 =
      { st with memories := jsSliceLast st.memories 49 ++ [mkMemory m] } := by
  cases b <;> rfl

/-- The records a call sequence inserts, in order. -/
def insertedRecords (calls : List (StoreBranch × MemoryInput)) : List UserMemory :=
  calls.map (fun c => mkMemory c.2)

theorem storeMemorySeq_memories (calls : List (StoreBranch × MemoryInput)) :
    ∀ (st : EdgeMemoryState) (M : List UserMemory),
      st.memories = jsSliceLast M 50 →
      (storeMemorySeq st calls).memories =
        jsSliceLast (M ++ insertedRecords calls) 50 := by
  induction calls with
  | nil =>
      intro st M h
      simpa [storeMemorySeq, insertedRecords] using h
  | cons c cs ih =>
      intro st M h
      have hstep : (storeMemory c.1 st c.2).1.memories =
          jsSliceLast (M ++ [mkMemory c.2]) 50 := by
        rw [storeMemory_fst, h, jsSliceLast_jsSliceLast M (by omega),
          jsSliceLast_append_one]
      have : storeMemorySeq st (c :: cs) =
          storeMemorySeq (storeMemory c.1 st c.2).1 cs := rfl
      rw [this, ih _ (M ++ [mkMemory c.2]) hstep]
      simp [insertedRecords]

/-- C1: for every sequence of storeMemory calls starting from the initial
empty state, on any mix of branches (no identity, remote ok, remote
throw), the in-memory memories list equals the last 50 of the inserted
records in insertion order, so its length never exceeds 50, and every
stored record carries confidence exactly 0.5. -/
theorem claim1_storeMemory_bounded (calls : List (StoreBranch × MemoryInput)) :
    (storeMemorySeq initialEdgeState calls).memories =
      jsSliceLast (insertedRecords calls) 50 ∧
    (storeMemorySeq initialEdgeState calls).memories.length ≤ 50 ∧
    ∀ r ∈ (storeMemorySeq initialEdgeState calls).memories,
      r.confidence = 1/2 := by
  have hchar := storeMemorySeq_memories calls initialEdgeState []
    (by simp [initialEdgeState, jsSliceLast_nil])
  simp only [List.nil_append] at hchar
  refine ⟨hchar, ?_, ?_⟩
  · rw [hchar, length_jsSliceLast]
    omega
  · intro r hr
    rw [hchar] at hr
    have hr' := jsSliceLast_subset (insertedRecords calls) 50 hr
    rcases List.mem_map.mp hr' with ⟨c, _, hc⟩
    rw [← hc]
    rfl

/-- A concrete memory record used by counterexamples. -/
def cexMemory : UserMemory :=
  { content := "likes tea"
    memoryType := "insight"
    importance := "high"
    confidence := 1/2
    topicTags := none }

/-- A concrete state holding one memory, used by counterexamples. -/
def cexState : EdgeMemoryState := { initialEdgeState with memories := [cexMemory] }

/-- C3 counterexample: a rehydrate call whose remote reports an error,
run from a state holding one memory and with no local cache, leaves that
memory in place; the claim asserts the state would equal an empty/default
snapshot when no cache exists. -/
theorem claim3_rehydrate_failure_cex :
    (rehydrateInternal .err 7 cexState none).1.memories = [cexMemory] ∧
    [cexMemory] ≠ ([] : List UserMemory) := by
  exact ⟨rfl, by decide⟩

/-- C3 (amended): on a rehydrate whose remote reports an error or throws,
the online flag is false afterward and the cache is not written; when a
cache exists, the in-memory memories/knowledge/session are replaced by
its contents (missing fields defaulting to empty); when no cache exists,
they keep their prior in-memory values rather than resetting to an
empty/default snapshot. -/
theorem claim3_rehydrate_failure (outcome : RehydrateOutcome)
    (h : outcome = .err ∨ outcome = .exn) (now : ℕ)
    (st : EdgeMemoryState) (cache : Option CacheBlob) :
    (rehydrateInternal outcome now st cache).1.isOnline = false ∧
    (rehydrateInternal outcome now st cache).2 = cache ∧
    (∀ blob, cache = some blob →
      (rehydrateInternal outcome now st cache).1.memories = blob.memories.getD [] ∧
      (rehydrateInternal outcome now st cache).1.knowledge = blob.knowledge.getD [] ∧
      (rehydrateInternal outcome now st cache).1.session = blob.session.join) ∧
    (cache = none →
      (rehydrateInternal outcome now st cache).1.memories = st.memories ∧
      (rehydrateInternal outcome now st cache).1.knowledge = st.knowledge ∧
      (rehydrateInternal outcome now st cache).1.session = st.session) := by
  rcases h with h | h <;> subst h <;> cases cache with
  | none =>
      refine ⟨rfl, rfl, ?_, ?_⟩
      · intro blob hb
        cases hb
      · intro _
        exact ⟨rfl, rfl, rfl⟩
  | some blob =>
      refine ⟨rfl, rfl, ?_, ?_⟩
      · intro b hb
        injection hb with hb'
        subst hb'
        exact ⟨rfl, rfl, rfl⟩
      · intro hn
        cases hn

/-- C3 witness: the amended statement applied to a concrete failing
rehydrate with no cache. -/
theorem claim3_rehydrate_failure_witness :
    (rehydrateInternal .err 0 initialEdgeState none).1.isOnline = false ∧
    (rehydrateInternal .err 0 initialEdgeState none).2 = none ∧
    (∀ blob, (none : Option CacheBlob) = some blob →
      (rehydrateInternal .err 0 initialEdgeState none).1.memories = blob.memories.getD [] ∧
      (rehydrateInternal .err 0 initialEdgeState none).1.knowledge = blob.knowledge.getD [] ∧
      (rehydrateInternal .err 0 initialEdgeState none).1.session = blob.session.join) ∧
    ((none : Option CacheBlob) = none →
      (rehydrateInternal .err 0 initialEdgeState none).1.memories = initialEdgeState.memories ∧
      (rehydrateInternal .err 0 initialEdgeState none).1.knowledge = initialEdgeState.knowledge ∧
      (rehydrateInternal .err 0 initialEdgeState none).1.session = initialEdgeState.session) :=
  claim3_rehydrate_failure .err (Or.inl rfl) 0 initialEdgeState none

/-- C4: on a rehydrate whose remote call succeeds, the in-memory
memories, knowledge, session, returning-user flag and greeting are
replaced by the response (missing context fields defaulting to empty),
the online flag is set with a sync timestamp, and the blob written to the
local cache holds memories/knowledge/session identical to the new
in-memory state. -/
theorem claim4_rehydrate_success (d : RehydrateData) (now : ℕ)
    (st : EdgeMemoryState) (cache : Option CacheBlob) :
    (rehydrateInternal (.ok d) now st cache).1.memories =
      (d.context.bind (·.memories)).getD [] ∧
    (rehydrateInternal (.ok d) now st cache).1.knowledge =
      (d.context.bind (·.knowledge)).getD [] ∧
    (rehydrateInternal (.ok d) now st cache).1.session =
      d.context.bind (·.session) ∧
    (rehydrateInternal (.ok d) now st cache).1.isReturningUser =
      d.isReturningUser ∧
    (rehydrateInternal (.ok d) now st cache).1.greeting = d.greeting ∧
    (rehydrateInternal (.ok d) now st cache).1.isOnline = true ∧
    (rehydrateInternal (.ok d) now st cache).1.lastSyncAt = some now ∧
    ∃ blob, (rehydrateInternal (.ok d) now st cache).2 = some blob ∧
      blob.memories = some (rehydrateInternal (.ok d) now st cache).1.memories ∧
      blob.knowledge = some (rehydrateInternal (.ok d) now st cache).1.knowledge ∧
      blob.session = some (rehydrateInternal (.ok d) now st cache).1.session ∧
      blob.savedAt = some now := by
  exact ⟨rfl, rfl, rfl, rfl, rfl, rfl, rfl, _, rfl, rfl, rfl, rfl, rfl⟩

/-- C7: updateSession is a no-op without an identity (no state change, no
remote call); with an identity it fires the sync_session call and merges
the partial update into the local session only when one already exists
(the session stays null otherwise); when the remote call throws, no local
merge happens and the rest of the state is untouched. -/
theorem claim7_updateSession (hasUser : Bool) (outcome : SyncOutcome)
    (st : EdgeMemoryState) (upd : SessionPatch) :
    (hasUser = false → updateSession hasUser outcome st upd = (st, [])) ∧
    (hasUser = true →
      (updateSession hasUser outcome st upd).2 = [.syncSessionCall] ∧
      (outcome = .exn → (updateSession hasUser outcome st upd).1 = st) ∧
      (outcome = .ret →
        (updateSession hasUser outcome st upd).1.session =
          st.session.map (fun s => mergeSession s upd) ∧
        (st.session = none →
          (updateSession hasUser outcome st upd).1.session = none) ∧
        (∀ s, st.session = some s →
          (updateSession hasUser outcome st upd).1.session =
            some (mergeSession s upd)) ∧
        (updateSession hasUser outcome st upd).1.memories = st.memories ∧
        (updateSession hasUser outcome st upd).1.knowledge = st.knowledge)) := by
  cases hasUser with
  | false =>
      refine ⟨fun _ => rfl, ?_⟩
      intro h
      cases h
  | true =>
      refine ⟨?_, ?_⟩
      · intro h
        cases h
      · intro _
        cases outcome with
        | exn =>
            refine ⟨rfl, fun _ => rfl, ?_⟩
            intro h
            cases h
        | ret =>
            refine ⟨rfl, ?_, ?_⟩
            · intro h
              cases h
            · intro _
              refine ⟨rfl, ?_, ?_, rfl, rfl⟩
              · intro hs
                simp [updateSession, hs]
              · intro s hs
                simp [updateSession, hs]

/-- C7 witness: the theorem applied to a concrete identified call whose
remote completes, on a state with no session. -/
theorem claim7_updateSession_witness :
    (true = false → updateSession true .ret initialEdgeState {} = (initialEdgeState, [])) ∧
    (true = true →
      (updateSession true .ret initialEdgeState {}).2 = [.syncSessionCall] ∧
      (SyncOutcome.ret = .exn →
        (updateSession true .ret initialEdgeState {}).1 = initialEdgeState) ∧
      (SyncOutcome.ret = .ret →
        (updateSession true .ret initialEdgeState {}).1.session =
          initialEdgeState.session.map (fun s => mergeSession s {}) ∧
        (initialEdgeState.session = none →
          (updateSession true .ret initialEdgeState {}).1.session = none) ∧
        (∀ s, initialEdgeState.session = some s →
          (updateSession true .ret initialEdgeState {}).1.session =
            some (mergeSession s {})) ∧
        (updateSession true .ret initialEdgeState {}).1.memories =
          initialEdgeState.memories ∧
        (updateSession true .ret initialEdgeState {}).1.knowledge =
          initialEdgeState.knowledge)) :=
  claim7_updateSession true .ret initialEdgeState {}

/-- Is this edge call a memory-store side effect? -/
def isStoreCall : EdgeCall → Bool
  | .storeCall _ _ => true
  | _ => false

/-- Is this edge call a knowledge-evolution side effect? -/
def isEvolveCall : EdgeCall → Bool
  | .evolveCall _ _ _ => true
  | _ => false

@[simp] theorem isStoreCall_store (m : MemoryInput) (s : String) :
    isStoreCall (.storeCall m s) = true := rfl

@[simp] theorem isStoreCall_evolve (k v t : String) :
    isStoreCall (.evolveCall k v t) = false := rfl

@[simp] theorem isStoreCall_extract : isStoreCall .extractCall = false := rfl

@[simp] theorem isEvolveCall_store (m : MemoryInput) (s : String) :
    isEvolveCall (.storeCall m s) = false := rfl

@[simp] theorem isEvolveCall_evolve (k v t : String) :
    isEvolveCall (.evolveCall k v t) = true := rfl

@[simp] theorem isEvolveCall_extract : isEvolveCall .extractCall = false := rfl

/-- C8: extractInsights is a no-op without an identity or with a
transcript of fewer than 2 turns; on a structured success response the
fan-out is the preference evolutions (confidence strictly above 0.6), then
the pattern evolutions (strictly above 0.5), then one memory store per
fact, in that order, so a response with 3 facts and no preferences or
patterns yields exactly 3 memory-store side effects and zero evolution
calls. -/
theorem claim8_extractInsights (isOnline : Bool) (conv : List ConvTurn) :
    (∀ outcome, extractInsights false isOnline conv outcome = []) ∧
    (∀ hasUser outcome, conv.length < 2 →
      extractInsights hasUser isOnline conv outcome = []) ∧
    (∀ d ins, 2 ≤ conv.length → d.success = true → d.insights = some ins →
      extractInsights true isOnline conv (.ok (some d)) =
        .extractCall ::
          ((((ins.preferences.getD []).filter
              (fun p => decide (p.confidence > 6/10))).map
            (fun p => EdgeCall.evolveCall p.key p.value "preference"))
          ++ (((ins.patterns.getD []).filter
                (fun p => decide (p.confidence > 5/10))).map
              (fun p => EdgeCall.evolveCall p.key p.value "behavior"))
          ++ ((ins.facts.getD []).map
              (fun f => EdgeCall.storeCall
                { content := f.content
                  memoryType := "insight"
                  importance := f.importance
                  topicTags := some [] }
                (if isOnline then "federated" else "sovereign")))) ∧
      ((extractInsights true isOnline conv (.ok (some d))).filter
          isEvolveCall).length =
        ((ins.preferences.getD []).filter
            (fun p => decide (p.confidence > 6/10))).length
        + ((ins.patterns.getD []).filter
            (fun p => decide (p.confidence > 5/10))).length ∧
      ((extractInsights true isOnline conv (.ok (some d))).filter
          isStoreCall).length = (ins.facts.getD []).length) ∧
    (∀ d ins f1 f2 f3, 2 ≤ conv.length → d.success = true →
      d.insights = some ins → ins.facts = some [f1, f2, f3] →
      (ins.preferences = none ∨ ins.preferences = some []) →
      (ins.patterns = none ∨ ins.patterns = some []) →
      ((extractInsights true isOnline conv (.ok (some d))).filter
          isStoreCall).length = 3 ∧
      ((extractInsights true isOnline conv (.ok (some d))).filter
          isEvolveCall).length = 0) := by
  have hred : ∀ d ins, 2 ≤ conv.length → d.success = true →
      d.insights = some ins →
      extractInsights true isOnline conv (.ok (some d)) =
        .extractCall ::
          ((((ins.preferences.getD []).filter
              (fun p => decide (p.confidence > 6/10))).map
            (fun p => EdgeCall.evolveCall p.key p.value "preference"))
          ++ (((ins.patterns.getD []).filter
                (fun p => decide (p.confidence > 5/10))).map
              (fun p => EdgeCall.evolveCall p.key p.value "behavior"))
          ++ ((ins.facts.getD []).map
              (fun f => EdgeCall.storeCall
                { content := f.content
                  memoryType := "insight"
                  importance := f.importance
                  topicTags := some [] }
                (if isOnline then "federated" else "sovereign")))) := by
    intro d ins h2 hd hins
    obtain ⟨suc, insOpt⟩ := d
    simp only at hd hins
    subst hd
    subst hins
    simp [extractInsights, Nat.not_lt.mpr h2]
  refine ⟨?_, ?_, ?_, ?_⟩
  · intro outcome
    rfl
  · intro hasUser outcome h
    simp [extractInsights, h]
  · intro d ins h2 hd hins
    refine ⟨hred d ins h2 hd hins, ?_, ?_⟩
    · rw [hred d ins h2 hd hins]
      simp [List.filter_append, List.filter_map, Function.comp]
    · rw [hred d ins h2 hd hins]
      simp [List.filter_append, List.filter_map, Function.comp]
  · intro d ins f1 f2 f3 h2 hd hins hf hp ht
    rw [hred d ins h2 hd hins]
    rcases hp with hp | hp <;> rcases ht with ht | ht <;>
      simp [hf, hp, ht, List.filter_append, List.filter_map, Function.comp]

/-- A concrete two-turn transcript used by witnesses. -/
def cexTurns : List ConvTurn :=
  [{ role := "user", content := "hi" }, { role := "assistant", content := "hello" }]

/-- Concrete facts used by the C8 witness. -/
def cexFactA : InsightFact := { content := "fact a", importance := "low" }

def cexFactB : InsightFact := { content := "fact b", importance := "medium" }

def cexFactC : InsightFact := { content := "fact c", importance := "high" }

/-- A concrete insights object with 3 facts and no preferences or
patterns. -/
def cexInsights : Insights :=
  { preferences := none, patterns := none, facts := some [cexFactA, cexFactB, cexFactC] }

/-- A concrete successful extract_insights response body. -/
def cexExtractData : ExtractData := { success := true, insights := some cexInsights }

/-- C8 witness: the theorem applied to a concrete two-turn transcript and
a success response carrying 3 facts and no preferences or patterns. -/
theorem claim8_extractInsights_witness :
    ((extractInsights true true cexTurns (.ok (some cexExtractData))).filter
        isStoreCall).length = 3 ∧
    ((extractInsights true true cexTurns (.ok (some cexExtractData))).filter
        isEvolveCall).length = 0 :=
  (claim8_extractInsights true cexTurns).2.2.2 cexExtractData cexInsights
    cexFactA cexFactB cexFactC (by decide) rfl rfl rfl (Or.inl rfl) (Or.inl rfl)

/-- Is this event a primary (chat) endpoint call? -/
def isPrimaryCall : DHEvent → Bool
  | .callPrimary => true
  | _ => false

/-- Is this event a sovereign endpoint call? -/
def isSovCall : DHEvent → Bool
  | .callSovereign _ => true
  | _ => false

/-- Did the primary call fail (structured error or thrown exception)? -/
def primaryFailed : PrimaryOutcome → Bool
  | .ok _ => false
  | .err => true
  | .exn => true

/-- C5: when the health check reports unhealthy, process never calls the
primary endpoint, calls the sovereign endpoint once, marks sovereign mode
active, and returns the sovereign result when that call succeeds. -/
theorem claim5_process_unhealthy (env : ProcEnv) (q : String) (st : DHState)
    (h : env.healthy = false) :
    ((process env q st).2.2.filter isPrimaryCall).length = 0 ∧
    ((process env q st).2.2.filter isSovCall).length = 1 ∧
    (process env q st).2.1.isSovereign = true ∧
    (∀ d, env.sov1 = .ok d → (process env q st).1 = .ok (mkSovResult d)) := by
  obtain ⟨hh, pr, s1, s2⟩ := env
  cases hh with
  | true => exact absurd h (by simp)
  | false =>
      cases s1 with
      | fail =>
          refine ⟨rfl, rfl, rfl, ?_⟩
          intro d hd
          cases hd
      | ok d0 =>
          refine ⟨rfl, rfl, rfl, ?_⟩
          intro d hd
          injection hd with h'
          subst h'
          rfl

/-- C5 witness: the theorem applied to a concrete unhealthy call whose
sovereign call succeeds with an empty reply body. -/
theorem claim5_process_unhealthy_witness :
    ((process ⟨false, .err, .ok {}, .fail⟩ "q" initialDHState).2.2.filter
        isPrimaryCall).length = 0 ∧
    ((process ⟨false, .err, .ok {}, .fail⟩ "q" initialDHState).2.2.filter
        isSovCall).length = 1 ∧
    (process ⟨false, .err, .ok {}, .fail⟩ "q" initialDHState).2.1.isSovereign = true ∧
    (∀ d, (⟨false, .err, .ok {}, .fail⟩ : ProcEnv).sov1 = .ok d →
      (process ⟨false, .err, .ok {}, .fail⟩ "q" initialDHState).1 =
        .ok (mkSovResult d)) :=
  claim5_process_unhealthy ⟨false, .err, .ok {}, .fail⟩ "q" initialDHState rfl

/-- C10: sovereign mode is not sticky: whenever the health check succeeds,
process emits the ping, then clears the sovereign flag, then attempts the
primary endpoint, regardless of the prior flag value; and after any call
the flag is set exactly when the health check failed or the primary call
errored or threw. -/
theorem claim10_sovereign_not_sticky (env : ProcEnv) (q : String) (st : DHState) :
    (env.healthy = true →
      ∃ rest, (process env q st).2.2 =
        .ping :: .setSov false :: .callPrimary :: rest) ∧
    (process env q st).2.1.isSovereign =
      (!env.healthy || primaryFailed env.primary) := by
  obtain ⟨hh, pr, s1, s2⟩ := env
  cases hh <;> cases pr <;> cases s1 <;> cases s2 <;>
    refine ⟨?_, rfl⟩ <;>
    first
      | exact fun h => absurd h Bool.false_ne_true
      | exact fun _ => ⟨_, rfl⟩

/-- C10 witness: the theorem applied to a concrete healthy call whose
primary call succeeds, starting from a state already in sovereign mode. -/
theorem claim10_sovereign_not_sticky_witness :
    ((⟨true, .ok {}, .fail, .fail⟩ : ProcEnv).healthy = true →
      ∃ rest,
        (process ⟨true, .ok {}, .fail, .fail⟩ "q"
            { initialDHState with isSovereign := true }).2.2 =
          .ping :: .setSov false :: .callPrimary :: rest) ∧
    (process ⟨true, .ok {}, .fail, .fail⟩ "q"
        { initialDHState with isSovereign := true }).2.1.isSovereign =
      (!(⟨true, .ok {}, .fail, .fail⟩ : ProcEnv).healthy ||
        primaryFailed (⟨true, .ok {}, .fail, .fail⟩ : ProcEnv).primary) :=
  claim10_sovereign_not_sticky ⟨true, .ok {}, .fail, .fail⟩ "q"
    { initialDHState with isSovereign := true }

/-- The environment of the C6 counterexample: healthy ping, structured
primary error, first sovereign call fails, second succeeds with an empty
body. -/
def cexEnvC6 : ProcEnv :=
  { healthy := true, primary := .err, sov1 := .fail, sov2 := .ok {} }

/-- C6 counterexample: with a healthy ping, a structured primary error and
a failing first sovereign call, process invokes the sovereign endpoint
twice, not exactly once, and the sovereign failure does not propagate:
the call returns the second sovereign result. -/
theorem claim6_failover_cex :
    ((process cexEnvC6 "q" initialDHState).2.2.filter isSovCall).length = 2 ∧
    ¬((process cexEnvC6 "q" initialDHState).2.2.filter isSovCall).length = 1 ∧
    (process cexEnvC6 "q" initialDHState).1 = .ok (mkSovResult {}) := by
  refine ⟨rfl, ?_, rfl⟩
  decide

/-- C6 (amended): with a healthy ping, the primary endpoint is called
exactly once (never retried).  When the primary throws, the sovereign
path runs exactly once and its failure propagates.  When the primary
returns a structured error, a successful first sovereign call is the only
sovereign call; but a failing first sovereign call is caught by the outer
handler, which invokes the sovereign path a second time, and only the
second call's failure propagates. -/
theorem claim6_failover (env : ProcEnv) (q : String) (st : DHState)
    (hh : env.healthy = true) :
    ((process env q st).2.2.filter isPrimaryCall).length = 1 ∧
    (env.primary = .exn →
      ((process env q st).2.2.filter isSovCall).length = 1 ∧
      (env.sov1 = .fail → (process env q st).1 = .error ()) ∧
      (∀ d, env.sov1 = .ok d → (process env q st).1 = .ok (mkSovResult d))) ∧
    (env.primary = .err →
      (∀ d, env.sov1 = .ok d →
        ((process env q st).2.2.filter isSovCall).length = 1 ∧
        (process env q st).1 = .ok (mkSovResult d)) ∧
      (env.sov1 = .fail →
        ((process env q st).2.2.filter isSovCall).length = 2 ∧
        (env.sov2 = .fail → (process env q st).1 = .error ()) ∧
        (∀ d, env.sov2 = .ok d →
          (process env q st).1 = .ok (mkSovResult d)))) := by
  obtain ⟨hh', pr, s1, s2⟩ := env
  cases hh' with
  | false => exact absurd hh Bool.false_ne_true
  | true =>
      cases pr with
      | ok d =>
          refine ⟨rfl, ?_, ?_⟩ <;> (intro h; cases h)
      | exn =>
          cases s1 with
          | fail =>
              refine ⟨rfl, ?_, ?_⟩
              · intro _
                refine ⟨rfl, ?_, ?_⟩
                · intro _
                  rfl
                · intro d hd
                  cases hd
              · intro h
                cases h
          | ok d0 =>
              refine ⟨rfl, ?_, ?_⟩
              · intro _
                refine ⟨rfl, ?_, ?_⟩
                · intro h
                  cases h
                · intro d hd
                  injection hd with h'
                  subst h'
                  rfl
              · intro h
                cases h
      | err =>
          cases s1 with
          | ok d0 =>
              refine ⟨rfl, ?_, ?_⟩
              · intro h
                cases h
              · intro _
                refine ⟨?_, ?_⟩
                · intro d hd
                  injection hd with h'
                  subst h'
                  exact ⟨rfl, rfl⟩
                · intro h
                  cases h
          | fail =>
              cases s2 with
              | fail =>
                  refine ⟨rfl, ?_, ?_⟩
                  · intro h
                    cases h
                  · intro _
                    refine ⟨?_, ?_⟩
                    · intro d hd
                      cases hd
                    · intro _
                      refine ⟨rfl, fun _ => rfl, ?_⟩
                      intro d hd
                      cases hd
              | ok d1 =>
                  refine ⟨rfl, ?_, ?_⟩
                  · intro h
                    cases h
                  · intro _
                    refine ⟨?_, ?_⟩
                    · intro d hd
                      cases hd
                    · intro _
                      refine ⟨rfl, ?_, ?_⟩
                      · intro h
                        cases h
                      · intro d hd
                        injection hd with h'
                        subst h'
                        rfl

/-- C6 witness: the amended statement applied to a concrete healthy call
whose primary throws and whose sovereign call fails, so the failure
propagates after exactly one sovereign invocation. -/
theorem claim6_failover_witness :
    ((process ⟨true, .exn, .fail, .fail⟩ "q" initialDHState).2.2.filter
        isPrimaryCall).length = 1 ∧
    ((process ⟨true, .exn, .fail, .fail⟩ "q" initialDHState).2.2.filter
        isSovCall).length = 1 ∧
    (process ⟨true, .exn, .fail, .fail⟩ "q" initialDHState).1 = .error () := by
  have h := claim6_failover ⟨true, .exn, .fail, .fail⟩ "q" initialDHState rfl
  exact ⟨h.1, (h.2.1 rfl).1, (h.2.1 rfl).2.1 rfl⟩

/-- After any process call, the window is either untouched (failure
paths) or the bounded append of the user turn and an assistant turn. -/
theorem process_localMemory_cases (env : ProcEnv) (q : String) (st : DHState) :
    (process env q st).2.1.localMemory = st.localMemory ∨
    ∃ a, (process env q st).2.1.localMemory =
      jsSliceLast st.localMemory 9 ++
        [{ role := "user", content := some q }, a] := by
  obtain ⟨hh, pr, s1, s2⟩ := env
  cases hh <;> cases pr <;> cases s1 <;> cases s2 <;>
    first
      | exact Or.inl rfl
      | exact Or.inr ⟨_, rfl⟩

/-- Every sovereign call a process call emits carries the last 10 turns of
the window as context. -/
theorem process_sovereign_ctx (env : ProcEnv) (q : String) (st : DHState) :
    ∀ ctx, DHEvent.callSovereign ctx ∈ (process env q st).2.2 →
      ctx = jsSliceLast st.localMemory 10 := by
  obtain ⟨hh, pr, s1, s2⟩ := env
  intro ctx h
  cases hh <;> cases pr <;> cases s1 <;> cases s2 <;>
    simp [process, processSovereign] at h <;> exact h

/-- A healthy environment whose primary call succeeds with an empty body;
used to iterate process. -/
def okEnv : ProcEnv :=
  { healthy := true, primary := .ok {}, sov1 := .fail, sov2 := .fail }

/-- Iterate process against okEnv, keeping the state. -/
def processNTimes : ℕ → DHState → DHState
  | 0, st => st
  | n + 1, st => processNTimes n ((process okEnv "q" st).2.1)

/-- C2 counterexample: after 6 successful primary process calls from the
initial empty state, the short-term window holds 11 entries, exceeding
the 10-entry bound the claim asserts (each success keeps the last 9
entries and appends 2). -/
theorem claim2_window_cex :
    (processNTimes 6 initialDHState).localMemory.length = 11 ∧
    ¬(11 : ℕ) ≤ 10 := by
  exact ⟨rfl, by decide⟩

/-- C2 (amended): every successful primary call and every successful
sovereign call appends the user query and the assistant response to the
window as the bounded update keeping the last 9 prior entries, so the
window length is bounded by 11 (not 10) after every operation; the
sovereign request carries at most the last 10 window turns as context. -/
theorem claim2_window (env : ProcEnv) (q : String) (st : DHState) :
    (st.localMemory.length ≤ 11 →
      (process env q st).2.1.localMemory.length ≤ 11) ∧
    (∀ d, env.healthy = true → env.primary = .ok d →
      (process env q st).2.1.localMemory =
        jsSliceLast st.localMemory 9 ++
          [{ role := "user", content := some q },
           { role := "assistant", content := some (mkChatResult d).response }]) ∧
    (∀ d, env.healthy = false → env.sov1 = .ok d →
      (process env q st).2.1.localMemory =
        jsSliceLast st.localMemory 9 ++
          [{ role := "user", content := some q },
           { role := "assistant", content := d.response }]) ∧
    (∀ ctx, DHEvent.callSovereign ctx ∈ (process env q st).2.2 →
      ctx.length ≤ 10) := by
  refine ⟨?_, ?_, ?_, ?_⟩
  · intro hlen
    rcases process_localMemory_cases env q st with h | ⟨a, h⟩
    · rw [h]
      exact hlen
    · rw [h]
      simp only [List.length_append, length_jsSliceLast, List.length_cons,
        List.length_nil]
      omega
  · intro d h1 h2
    obtain ⟨hh, pr, s1, s2⟩ := env
    cases hh with
    | false => exact absurd h1 Bool.false_ne_true
    | true =>
        cases pr with
        | ok d0 =>
            injection h2 with h'
            subst h'
            rfl
        | err => cases h2
        | exn => cases h2
  · intro d h1 h2
    obtain ⟨hh, pr, s1, s2⟩ := env
    cases hh with
    | true => exact absurd h1.symm Bool.false_ne_true
    | false =>
        cases s1 with
        | ok d0 =>
            injection h2 with h'
            subst h'
            cases pr <;> rfl
        | fail => cases h2
  · intro ctx hm
    rw [process_sovereign_ctx env q st ctx hm, length_jsSliceLast]
    omega

/-- C2 witness: the amended statement applied to one successful primary
call from the initial state. -/
theorem claim2_window_witness :
    (process okEnv "q" initialDHState).2.1.localMemory.length ≤ 11 ∧
    (process okEnv "q" initialDHState).2.1.localMemory =
      jsSliceLast initialDHState.localMemory 9 ++
        [{ role := "user", content := some "q" },
         { role := "assistant", content := some (mkChatResult {}).response }] := by
  have h := claim2_window okEnv "q" initialDHState
  exact ⟨h.1 (by decide), h.2.1 {} rfl rfl⟩

/-- C9: checkFederationHealth never throws and yields false on a thrown
exception or a structured error, as claimed; but because the abort signal
is never attached to the request, the full remote duration is always
awaited: the wait is not bounded by the 3000 ms timer, and at the
concrete failing input (a healthy remote answering after 10000 ms) the
call waits 10000 ms and returns true, where the claim promises an abort
at 3000 ms.  Attaching the timer's signal, as the code evidently
intended, would bound the wait by PING_TIMEOUT_MS. -/
theorem claim9_checkHealth_timeout_dead :
    (∀ env : PingEnv, (checkFederationHealth env).2 = env.durationMs) ∧
    (∀ env : PingEnv,
      (checkFederationHealth env).1 = (!env.throws && !env.retError)) ∧
    checkFederationHealth { retError := false, throws := false, durationMs := 10000 } =
      (true, 10000) ∧
    PING_TIMEOUT_MS < 10000 ∧
    (∀ env : PingEnv,
      (invokeWithSignal (some PING_TIMEOUT_MS) env).2 ≤ PING_TIMEOUT_MS) := by
  refine ⟨?_, ?_, rfl, by decide, ?_⟩
  · intro env
    obtain ⟨r, t, d⟩ := env
    cases t <;> rfl
  · intro env
    obtain ⟨r, t, d⟩ := env
    cases t <;> cases r <;> rfl
  · intro env
    obtain ⟨r, t, d⟩ := env
    simp only [invokeWithSignal]
    by_cases h : PING_TIMEOUT_MS < d
    · simp [h]
    · cases t <;> simp [h] <;> omega

/-- Concrete storeMemory inputs used by the C1 witness. -/
def cexInputA : MemoryInput :=
  { content := "a", memoryType := "fact", importance := "low", topicTags := none }

def cexInputB : MemoryInput :=
  { content := "b", memoryType := "fact", importance := "high", topicTags := some ["t"] }

/-- C1 witness: the theorem applied to a concrete two-call sequence mixing
the no-identity and remote-ok branches. -/
theorem claim1_storeMemory_bounded_witness :
    (storeMemorySeq initialEdgeState
        [(.noUser, cexInputA), (.remoteOk, cexInputB)]).memories =
      jsSliceLast (insertedRecords
        [(.noUser, cexInputA), (.remoteOk, cexInputB)]) 50 ∧
    (storeMemorySeq initialEdgeState
        [(.noUser, cexInputA), (.remoteOk, cexInputB)]).memories.length ≤ 50 ∧
    ∀ r ∈ (storeMemorySeq initialEdgeState
        [(.noUser, cexInputA), (.remoteOk, cexInputB)]).memories,
      r.confidence = 1/2 :=
  claim1_storeMemory_bounded [(.noUser, cexInputA), (.remoteOk, cexInputB)]

end EdgeSync
